import Mathlib

/-!
Shallow embedding of src/src/bollie-delay.c (the BollieDelay LV2 tempo-delay
plugin, fade-state-machine run loop).

Modelling conventions:

* C float/double arithmetic is modelled over the exact rationals.  The one
  place where an IEEE special value is observable is handle_tap, whose
  unconditional return 60000 / d yields +infinity when the rejection sentinel
  d == 0 is in effect; float values that may be this infinity are modelled by
  the two-constructor type FVal (finite rational or positive infinity).
* C int is modelled as ℤ.  The float-to-int conversion at the end of
  calc_delay_samples is undefined behaviour in C when the (floored) value does
  not fit a 32-bit int, and likewise when tempo == 0 makes 60 / tempo
  infinite; calc_delay_samples therefore returns an Option, with none for the
  undefined cases, and this none propagates through run.
* The fixed float buffers buffer_l / buffer_r of capacity MAX_TAPE_LEN are
  modelled as total functions ℕ → ℚ; C reads and writes use non-negative
  in-range indices in every behaviour analysed here (the write-position
  invariant is proved below), and indices are injected with Int.toNat.
* The external tone-stage filters of bolliefilter.h (bf_lcf, bf_hcf, bf_reset)
  are not part of src/; the source calls them only when the low_on / high_on
  control ports are set and otherwise passes the sample through unchanged
  (spec section 6).  The model covers blocks with both filter sections
  disabled, where the per-sample data path of the source does not involve the
  filters at all.
* gettimeofday in handle_tap is modelled by an explicit argument now_ms: the
  wall-clock millisecond count observed by the (at most one) tap handling of
  a run call.
-/

/- The rational arithmetic of the Lean core library is sealed behind
irreducibility; remove the seal locally so that concrete runs of the model
can be evaluated by the kernel (decide). -/
attribute [local semireducible] Rat.add Rat.sub Rat.mul Rat.inv

/-- Buffer capacity of each delay line (bollie-delay.c line 36). -/
def MAX_TAPE_LEN : ℤ := 1920001

/-- Overall engine state enumeration (bollie-delay.c lines 72-79); the
declaration order matters because calloc initializes the field to the first
enumerator FADE_IN. -/
inductive BollieState where
  | FADE_IN
  | FADE_IN_DONE
  | FADE_OUT
  | FADE_OUT_DONE
  | FILL_BUF
  | CYCLE
deriving DecidableEq, Repr

/-- Fade progress state (bollie-delay.c lines 85-88). -/
structure Fade where
  length : ℤ
  pos : ℤ
deriving DecidableEq, Repr

/-- A C float value as observed in this program: either an exact finite value
or IEEE positive infinity (produced only by 60000 / 0 in handle_tap and
consumed by 60 / tempo in calc_delay_samples). -/
inductive FVal where
  | fin (q : ℚ)
  | inf
deriving DecidableEq, Repr

/-- The comparison v > 0 on a float that may be +infinity. -/
def FVal.gtZero : FVal → Bool
  | FVal.fin q => decide (0 < q)
  | FVal.inf => true

/-- C float-to-int conversion (truncation toward zero) on an exact rational. -/
def truncQ (q : ℚ) : ℤ :=
  if 0 ≤ q then ⌊q⌋ else -⌊-q⌋

/-- The mutable part of a BollieDelay instance (bollie-delay.c lines 94-147)
that the run loop touches; the port pointers are supplied per block as Inputs
below.  Buffers are functions from index to stored sample. -/
structure BollieDelay where
  rate : ℚ
  buffer_l : ℕ → ℚ
  buf_fill_l : ℤ
  buffer_r : ℕ → ℚ
  buf_fill_r : ℤ
  d_samples_l : ℤ
  d_samples_r : ℤ
  fade : Fade
  tempo_tap : FVal
  cur_tempo : FVal
  cur_div_l : ℚ
  cur_div_r : ℚ
  wl_pos : ℤ
  wr_pos : ℤ
  rl_pos : ℤ
  rr_pos : ℤ
  start_tap : ℤ
  state : BollieState

/-- Control-port and audio-port values read by one run call (the model covers
blocks with the low-cut and high-cut filter sections disabled, see the header
comment).  input_l and input_r have n_samples entries each. -/
structure Inputs where
  tempo_host : ℚ
  tempo_user : ℚ
  tempo_mode : ℚ
  tap : ℚ
  mix : ℚ
  decay : ℚ
  crossf : ℚ
  div_l : ℚ
  div_r : ℚ
  input_l : List ℚ
  input_r : List ℚ
deriving DecidableEq, Repr

/-- What one loop iteration of run writes to the output ports: one sample per
audio output channel and the fade debug port value fc * 100. -/
structure SampleOut where
  out_l : ℚ
  out_r : ℚ
  fade_out : ℚ
deriving DecidableEq, Repr

/-- fade_coeff (bollie-delay.c lines 154-173): returns the fade coefficient
and the updated state and fade fields.  In the FADE_IN branch the coefficient
uses the pre-increment position, in the FADE_OUT branch the pre-decremented
position; when a fade has just finished the function falls through to the
final return with the state already updated. -/
def fade_coeff : BollieState → Fade → ℚ × BollieState × Fade
  | BollieState.FADE_IN, f =>
      if f.pos < f.length then
        ((f.pos : ℚ) * (1 / (f.length : ℚ)), BollieState.FADE_IN,
          { f with pos := f.pos + 1 })
      else
        (1, BollieState.CYCLE, f)
  | BollieState.FADE_OUT, f =>
      if 0 < f.pos then
        (((f.pos - 1 : ℤ) : ℚ) * (1 / (f.length : ℚ)), BollieState.FADE_OUT,
          { f with pos := f.pos - 1 })
      else
        (0, BollieState.FADE_OUT_DONE, f)
  | st, f => (if st = BollieState.CYCLE then 1 else 0, st, f)

/-- instantiate (bollie-delay.c lines 181-195): calloc zeroes every field
(so state is the first enumerator FADE_IN and tempo_tap is 0), then the
sample rate and the fade length ceil(rate / 50) are set. -/
def instantiate (rate : ℚ) : BollieDelay :=
  { rate := rate
    buffer_l := fun _ => 0
    buf_fill_l := 0
    buffer_r := fun _ => 0
    buf_fill_r := 0
    d_samples_l := 0
    d_samples_r := 0
    fade := { length := ⌈rate / 50⌉, pos := 0 }
    tempo_tap := FVal.fin 0
    cur_tempo := FVal.fin 0
    cur_div_l := 0
    cur_div_r := 0
    wl_pos := 0
    wr_pos := 0
    rl_pos := 0
    rr_pos := 0
    start_tap := 0
    state := BollieState.FADE_IN }

/-- activate (bollie-delay.c lines 279-313): zero both buffers, reset fill
levels, delay-sample targets, positions, memorized tempo/divisions, tapping
(start_tap := 0, tempo_tap := 120) and set the state to FILL_BUF.  The fade
field is not touched. -/
def activate (s : BollieDelay) : BollieDelay :=
  { s with
    buffer_l := fun _ => 0
    buffer_r := fun _ => 0
    state := BollieState.FILL_BUF
    buf_fill_r := 0
    buf_fill_l := 0
    d_samples_l := 0
    d_samples_r := 0
    wl_pos := 0
    wr_pos := 0
    rl_pos := 0
    rr_pos := 0
    cur_tempo := FVal.fin 0
    cur_div_l := 0
    cur_div_r := 0
    start_tap := 0
    tempo_tap := FVal.fin 120 }

/-- handle_tap (bollie-delay.c lines 321-342): with the previous tap time and
the current wall-clock milliseconds, computes the interval d, zeroes it when
no previous tap is memorized or when the interval is outside (50, 10000], and
returns 60000 / d (which is IEEE +infinity exactly when d == 0) together with
the advanced tap timestamp. -/
def handle_tap (start_tap : ℤ) (now_ms : ℤ) : FVal × ℤ :=
  let d : ℚ :=
    if start_tap ≠ 0 then
      let d0 : ℚ := ((now_ms - start_tap : ℤ) : ℚ)
      if d0 ≤ 50 ∨ 10000 < d0 then 0 else d0
    else 0
  (if d = 0 then FVal.inf else FVal.fin (60000 / d), now_ms)

/-- The switch statement of calc_delay_samples (bollie-delay.c lines 356-372)
as a function of the already-computed base length d and the divider. -/
def divApply (d : ℚ) (k : ℤ) : ℚ :=
  if k = 1 then d * 2 / 3
  else if k = 2 then d / 2
  else if k = 3 then d / 4 * 3
  else if k = 4 then d / 3
  else if k = 5 then d / 4
  else d

/-- calc_delay_samples (bollie-delay.c lines 353-374): d := 60 / tempo * rate,
adjusted by the divider switch, then floor(d) converted to int.  tempo == 0
makes d infinite and the conversion undefined behaviour (none); an infinite
tempo (possible via tempo_tap) gives 60 / inf = 0 hence 0 samples; a floored
value outside the 32-bit int range makes the conversion undefined behaviour
(none). -/
def calc_delay_samples (rate : ℚ) (tempo : FVal) (k : ℤ) : Option ℤ :=
  match tempo with
  | FVal.inf => some 0
  | FVal.fin t =>
    if t = 0 then none
    else
      let d := divApply (60 / t * rate) k
      if -2147483648 ≤ ⌊d⌋ ∧ ⌊d⌋ ≤ 2147483647 then some ⌊d⌋ else none

/-- The clamping of a freshly computed delay-sample count against the buffer
capacity (bollie-delay.c lines 426-430): the buffer must be one sample bigger
than the delay time. -/
def clampTarget (d : ℤ) : ℤ :=
  if MAX_TAPE_LEN < d + 1 then MAX_TAPE_LEN - 1 else d

/-- The tap handling at the top of run (bollie-delay.c lines 387-391): when
the tap port is positive, handle_tap advances the timestamp and its return
value overwrites tempo_tap whenever it compares greater than zero (which an
infinite return value does). -/
def tapStep (s : BollieDelay) (inp : Inputs) (now_ms : ℤ) : BollieDelay :=
  { s with
    tempo_tap :=
      if 0 < inp.tap ∧ (handle_tap s.start_tap now_ms).1.gtZero then
        (handle_tap s.start_tap now_ms).1
      else s.tempo_tap
    start_tap :=
      if 0 < inp.tap then (handle_tap s.start_tap now_ms).2 else s.start_tap }

/-- Tempo-mode resolution (bollie-delay.c lines 393-402): host tempo by
default, user tempo for mode 1, tapped tempo for mode 2. -/
def effTempo (s : BollieDelay) (inp : Inputs) : FVal :=
  match truncQ inp.tempo_mode with
  | 1 => FVal.fin inp.tempo_user
  | 2 => s.tempo_tap
  | _ => FVal.fin inp.tempo_host

/-- The change-detection / recompute block of run (bollie-delay.c lines
386-451), executed once per run call before the sample loop: tap handling,
tempo resolution, and, if tempo or a division differs from the memorized
values, either the recompute (only in state FADE_OUT_DONE: memorize settings,
calc_delay_samples per channel, clamp, reset positions and fill levels, write
the tempo output port, state := FILL_BUF) or the transition to FADE_OUT.
The second component is the value written to the tempo_out port, if any. -/
def headStep (s : BollieDelay) (inp : Inputs) (now_ms : ℤ) :
    Option (BollieDelay × Option FVal) :=
  let s1 := tapStep s inp now_ms
  let tempo := effTempo s1 inp
  if tempo ≠ s1.cur_tempo ∨ inp.div_l ≠ s1.cur_div_l ∨ inp.div_r ≠ s1.cur_div_r then
    if s1.state = BollieState.FADE_OUT_DONE then
      match calc_delay_samples s1.rate tempo (truncQ inp.div_l),
            calc_delay_samples s1.rate tempo (truncQ inp.div_r) with
      | some dl0, some dr0 =>
        some ({ s1 with
          cur_tempo := tempo
          cur_div_l := inp.div_l
          cur_div_r := inp.div_r
          d_samples_l := clampTarget dl0
          d_samples_r := clampTarget dr0
          rl_pos := 0
          rr_pos := 0
          wl_pos := clampTarget dl0
          wr_pos := clampTarget dr0
          buf_fill_l := 0
          buf_fill_r := 0
          state := BollieState.FILL_BUF }, some tempo)
      | _, _ => none
    else if s1.state ≠ BollieState.FADE_OUT then
      some ({ s1 with state := BollieState.FADE_OUT }, none)
    else
      some (s1, none)
  else
    some (s1, none)

/-- One iteration of the sample loop of run (bollie-delay.c lines 454-567)
for input samples in_l / in_r, with both filter sections disabled so the
current samples are the raw inputs.  Record updates carry conditionals inside
the changed fields so that untouched fields are definitionally preserved. -/
def sampleStep (inp : Inputs) (s : BollieDelay) (in_l in_r : ℚ) :
    BollieDelay × SampleOut :=
  let fcr := fade_coeff s.state s.fade
  let fc := fcr.1
  let s1 := { s with state := fcr.2.1, fade := fcr.2.2 }
  let old_s_l :=
    if s1.state = BollieState.FILL_BUF then 0
    else s1.buffer_l s1.rl_pos.toNat * fc
  let old_s_r :=
    if s1.state = BollieState.FILL_BUF then 0
    else s1.buffer_r s1.rr_pos.toNat * fc
  let s2 := { s1 with
    state :=
      if s1.state = BollieState.FILL_BUF ∧ s1.buf_fill_r = s1.d_samples_r ∧
          s1.buf_fill_l = s1.d_samples_l then
        BollieState.FADE_IN
      else s1.state }
  let cur_fs_l := in_l
  let cur_fs_r := in_r
  let s3 := { s2 with
    buffer_l := fun j =>
      if j = s2.wl_pos.toNat then
        cur_fs_l + old_s_r * inp.crossf / 100 + old_s_l * inp.decay / 100
      else s2.buffer_l j
    buffer_r := fun j =>
      if j = s2.wr_pos.toNat then
        cur_fs_r + old_s_l * inp.crossf / 100 + old_s_r * inp.decay / 100
      else s2.buffer_r j
    buf_fill_l :=
      if s2.buf_fill_l < s2.d_samples_l then s2.buf_fill_l + 1 else s2.buf_fill_l
    buf_fill_r :=
      if s2.buf_fill_r < s2.d_samples_r then s2.buf_fill_r + 1 else s2.buf_fill_r }
  let out_l := fc * (old_s_l * inp.mix / 100) + in_l * (100 - inp.mix) / 100
  let out_r := fc * (old_s_l * inp.mix / 100) + in_r * (100 - inp.mix) / 100
  let s4 := { s3 with
    wl_pos := if s3.d_samples_l + 1 ≤ s3.wl_pos + 1 then 0 else s3.wl_pos + 1
    wr_pos := if s3.d_samples_r + 1 ≤ s3.wr_pos + 1 then 0 else s3.wr_pos + 1
    rl_pos := if s3.d_samples_l + 1 ≤ s3.rl_pos + 1 then 0 else s3.rl_pos + 1
    rr_pos := if s3.d_samples_r + 1 ≤ s3.rr_pos + 1 then 0 else s3.rr_pos + 1 }
  (s4, { out_l := out_l, out_r := out_r, fade_out := fc * 100 })

/-- The sample loop of run over a list of (left, right) input sample pairs. -/
def runSamples (inp : Inputs) : BollieDelay → List (ℚ × ℚ) →
    BollieDelay × List SampleOut
  | s, [] => (s, [])
  | s, p :: rest =>
    let r1 := sampleStep inp s p.1 p.2
    let r2 := runSamples inp r1.1 rest
    (r2.1, r1.2 :: r2.2)

/-- One run call (bollie-delay.c lines 382-568): the head (tap handling,
tempo resolution, change detection / recompute) followed by the sample loop
over the block.  none models the undefined behaviour inherited from
calc_delay_samples. -/
def runBlock (s : BollieDelay) (inp : Inputs) (now_ms : ℤ) :
    Option (BollieDelay × Option FVal × List SampleOut) :=
  match headStep s inp now_ms with
  | none => none
  | some (s1, tout) =>
    let r := runSamples inp s1 (inp.input_l.zip inp.input_r)
    some (r.1, tout, r.2)

/-- A sequence of run calls, each with its port values and the wall-clock
milliseconds its tap handling would observe. -/
def runTrace : BollieDelay → List (Inputs × ℤ) →
    Option (BollieDelay × List (List SampleOut))
  | s, [] => some (s, [])
  | s, b :: rest =>
    match runBlock s b.1 b.2 with
    | none => none
    | some (s1, _, outs) =>
      match runTrace s1 rest with
      | none => none
      | some (s2, outss) => some (s2, outs :: outss)

/-- Projection helper: the state after one run call (the argument state when
the call runs into undefined behaviour; all uses below are on defined calls). -/
def blockState (s : BollieDelay) (inp : Inputs) (now_ms : ℤ) : BollieDelay :=
  match runBlock s inp now_ms with
  | some r => r.1
  | none => s

/-- Projection helper: the tempo_out port write of one run call. -/
def blockTOut (s : BollieDelay) (inp : Inputs) (now_ms : ℤ) : Option FVal :=
  match runBlock s inp now_ms with
  | some r => r.2.1
  | none => none

/-- Projection helper: the output samples of one run call. -/
def blockOuts (s : BollieDelay) (inp : Inputs) (now_ms : ℤ) : List SampleOut :=
  match runBlock s inp now_ms with
  | some r => r.2.2
  | none => []

/-- The fade coefficient that the next sample iteration will use from state s
(bollie-delay.c line 458). -/
def fadeFC (s : BollieDelay) : ℚ :=
  (fade_coeff s.state s.fade).1

/-- The state with the fade_coeff state/fade updates applied, as seen by the
rest of the sample iteration. -/
def postFade (s : BollieDelay) : BollieDelay :=
  { s with
    state := (fade_coeff s.state s.fade).2.1
    fade := (fade_coeff s.state s.fade).2.2 }

/-- The delayed left-channel sample old_s_l of the next sample iteration from
state s (bollie-delay.c lines 464, 480): zero while the buffer is being
filled, otherwise the buffered sample at the left read position scaled by the
fade coefficient. -/
def oldSampleL (s : BollieDelay) : ℚ :=
  if (postFade s).state = BollieState.FILL_BUF then 0
  else (postFade s).buffer_l (postFade s).rl_pos.toNat * fadeFC s

/-- The delayed right-channel sample old_s_r of the next sample iteration
from state s (bollie-delay.c lines 465, 479). -/
def oldSampleR (s : BollieDelay) : ℚ :=
  if (postFade s).state = BollieState.FILL_BUF then 0
  else (postFade s).buffer_r (postFade s).rr_pos.toNat * fadeFC s

/-- Whether the effective tempo an incoming run call will resolve (after its
tap handling) is a positive finite value; the positive-tempo-input side
condition of the write-position invariant. -/
def PosTempo (s : BollieDelay) (inp : Inputs) (now_ms : ℤ) : Prop :=
  (effTempo (tapStep s inp now_ms) inp).gtZero = true ∧
  effTempo (tapStep s inp now_ms) inp ≠ FVal.inf

/-- The engine states reachable from a freshly activated instance through run
calls whose resolved tempo is finite and positive and which complete without
undefined behaviour. -/
inductive Reachable (rate : ℚ) : BollieDelay → Prop where
  | act : 0 < rate → Reachable rate (activate (instantiate rate))
  | step : ∀ {s : BollieDelay} {inp : Inputs} {now_ms : ℤ}
      {s2 : BollieDelay} {tout : Option FVal} {outs : List SampleOut},
      Reachable rate s → PosTempo s inp now_ms →
      runBlock s inp now_ms = some (s2, tout, outs) → Reachable rate s2

/-- The structural invariant behind the write-position bound: positive sample
rate, both delay-sample targets within [0, MAX_TAPE_LEN - 1], and each write
position within [0, d_samples] of its channel. -/
def EngineInv (s : BollieDelay) : Prop :=
  0 < s.rate ∧
  0 ≤ s.d_samples_l ∧ s.d_samples_l ≤ MAX_TAPE_LEN - 1 ∧
  0 ≤ s.wl_pos ∧ s.wl_pos ≤ s.d_samples_l ∧
  0 ≤ s.d_samples_r ∧ s.d_samples_r ≤ MAX_TAPE_LEN - 1 ∧
  0 ≤ s.wr_pos ∧ s.wr_pos ≤ s.d_samples_r

instance (s : BollieDelay) (inp : Inputs) (now_ms : ℤ) :
    Decidable (PosTempo s inp now_ms) :=
  inferInstanceAs (Decidable (_ = true ∧ _ ≠ _))

/-- Baseline control settings for the concrete traces below: host-tempo mode
at 120 BPM, no tap, full-wet mix, no decay and no crossfeed, both dividers 0,
one silent input sample per channel. -/
def baseInp : Inputs :=
  { tempo_host := 120
    tempo_user := 0
    tempo_mode := 0
    tap := 0
    mix := 100
    decay := 0
    crossf := 0
    div_l := 0
    div_r := 0
    input_l := [0]
    input_r := [0] }

/-- An empty block (n_samples = 0) with the baseline controls. -/
def baseInp0 : Inputs := { baseInp with input_l := [], input_r := [] }

/-- Third block of the impulse trace: eleven samples, a unit impulse on the
left channel at sample 5, silence on the right channel. -/
def c1_inp3 : Inputs :=
  { baseInp with
    input_l := [0, 0, 0, 0, 0, 1, 0, 0, 0, 0, 0]
    input_r := [0, 0, 0, 0, 0, 0, 0, 0, 0, 0, 0] }

/-- State at sample rate 8 after one baseline block (which walks the state
machine to FADE_OUT_DONE) and one empty block (which recomputes the delay to
4 samples per channel and enters FILL_BUF). -/
def c1_s2 : BollieDelay :=
  blockState (blockState (activate (instantiate 8)) baseInp 0) baseInp0 0

/-- State just before sample 9 of the impulse block: the impulse written at
sample 5 is about to be read back from the left buffer. -/
def c1_s9 : BollieDelay :=
  (runSamples c1_inp3 c1_s2 ((c1_inp3.input_l.zip c1_inp3.input_r).take 9)).1

/-- Claim C1 (code_bug evaluation).  The spec says output_r is computed from
the delayed right-channel sample old_r, but line 552 of the source uses
old_s_l.  Concrete run at rate 8: after two baseline blocks the delay is 4
samples; in the impulse block a unit impulse enters only the left channel at
sample 5, and at sample 9 the code emits 1 on the right output even though
the right channel's delayed sample and the right input are both 0 (the spec
formula gives dry * 0 + wet * 0 = 0 there for any gains). -/
theorem c1_code_evaluation :
    (blockOuts c1_s2 c1_inp3 0)[9]? =
      some { out_l := 1, out_r := 1, fade_out := 100 } ∧
    oldSampleR c1_s9 = 0 ∧ oldSampleL c1_s9 = 1 ∧
    c1_inp3.input_r[9]? = some 0 := by decide

/-- Third block of the impulse trace with the mix/blend control at 50. -/
def c4_inp3 : Inputs := { c1_inp3 with mix := 50 }

/-- State just before sample 9 of the mix-50 impulse block. -/
def c4_s9 : BollieDelay :=
  (runSamples c4_inp3 c1_s2 ((c4_inp3.input_l.zip c4_inp3.input_r).take 9)).1

/-- Claim C4 (counterexample).  With mix = 50 the claim says the output
equals input + delayed signal at unit gains, hence 0 + 1 = 1 at sample 9 of
the impulse trace (input 0, delayed sample 1, fade coefficient 1); the code
instead emits (0 + 1) / 2 = 1/2: a scaled 50/50 blend. -/
theorem c4_counterexample :
    (blockOuts c1_s2 c4_inp3 0)[9]? =
      some { out_l := 1/2, out_r := 1/2, fade_out := 100 } ∧
    oldSampleL c4_s9 = 1 ∧ fadeFC c4_s9 = 1 ∧
    c4_inp3.input_l[9]? = some 0 ∧ ((1 : ℚ)/2 ≠ 0 + 1) := by decide

/-- Claim C4 (amended).  With the mix control at 50 the per-sample outputs
are a scaled 50/50 blend: each channel emits (fc * old_s_l + input) / 2,
where old_s_l is the (fade-scaled) delayed left-channel sample that the code
uses for both channels, not input + delayed signal at unit gains. -/
theorem c4_amended (inp : Inputs) (s : BollieDelay) (a b : ℚ)
    (hmix : inp.mix = 50) :
    (sampleStep inp s a b).2.out_l = (fadeFC s * oldSampleL s + a) / 2 ∧
    (sampleStep inp s a b).2.out_r = (fadeFC s * oldSampleL s + b) / 2 := by
  refine ⟨?_, ?_⟩
  · show fadeFC s * (oldSampleL s * inp.mix / 100) + a * (100 - inp.mix) / 100 =
      (fadeFC s * oldSampleL s + a) / 2
    rw [hmix]; ring
  · show fadeFC s * (oldSampleL s * inp.mix / 100) + b * (100 - inp.mix) / 100 =
      (fadeFC s * oldSampleL s + b) / 2
    rw [hmix]; ring

/-- Witness for c4_amended at a concrete state and inputs. -/
theorem c4_amended_witness :
    c4_inp3.mix = 50 ∧
    (sampleStep c4_inp3 (activate (instantiate 8)) 3 5).2.out_l =
      (fadeFC (activate (instantiate 8)) * oldSampleL (activate (instantiate 8)) + 3) / 2 ∧
    (sampleStep c4_inp3 (activate (instantiate 8)) 3 5).2.out_r =
      (fadeFC (activate (instantiate 8)) * oldSampleL (activate (instantiate 8)) + 5) / 2 :=
  ⟨by decide, (c4_amended c4_inp3 (activate (instantiate 8)) 3 5 (by decide)).1,
    (c4_amended c4_inp3 (activate (instantiate 8)) 3 5 (by decide)).2⟩

/-- The per-division delay factor exactly as the spec's table in section 4.3
states it (division 0: 1, 1: 2/3, 2: 1/2, 3: 3/4, 4: 1/3, 5: 1/4). -/
def specDivisionFactor (k : ℤ) : ℚ :=
  if k = 1 then 2/3
  else if k = 2 then 1/2
  else if k = 3 then 3/4
  else if k = 4 then 1/3
  else if k = 5 then 1/4
  else 1

/-- Claim C5 (counterexample).  At sample rate 48000, tempo 121, division 0
the code computes floor(60 / 121 * 48000) = 23801 samples, which is not
equal to base * factor = 2880000 / 121: the claim omits the floor. -/
theorem c5_counterexample :
    calc_delay_samples 48000 (FVal.fin 121) 0 = some 23801 ∧
    ¬ ((23801 : ℚ) = 60 / 121 * 48000 * specDivisionFactor 0) := by decide

/-- Claim C5 (amended).  For every nonzero tempo whose result fits a 32-bit
int, the computed delay length is the floor of base * division factor (with
the factors of the spec table); the adopted target is clamped to at most
MAX_TAPE_LEN - 1; and the scenario rate 48000, tempo 120, division 0 yields
exactly 24000 samples. -/
theorem c5_amended (rate t : ℚ) (k : ℤ) (ht : t ≠ 0)
    (h1 : -2147483648 ≤ ⌊divApply (60 / t * rate) k⌋)
    (h2 : ⌊divApply (60 / t * rate) k⌋ ≤ 2147483647) :
    calc_delay_samples rate (FVal.fin t) k = some ⌊divApply (60 / t * rate) k⌋ ∧
    divApply (60 / t * rate) k = 60 / t * rate * specDivisionFactor k ∧
    clampTarget ⌊divApply (60 / t * rate) k⌋ ≤ MAX_TAPE_LEN - 1 ∧
    calc_delay_samples 48000 (FVal.fin 120) 0 = some 24000 := by
  refine ⟨?_, ?_, ?_, by decide⟩
  · unfold calc_delay_samples
    dsimp only
    rw [if_neg ht]
    exact if_pos ⟨h1, h2⟩
  · unfold divApply specDivisionFactor
    split_ifs <;> ring
  · unfold clampTarget MAX_TAPE_LEN
    split <;> omega

/-- Witness for c5_amended at rate 48000, tempo 97, division 5. -/
theorem c5_amended_witness :
    ((97 : ℚ) ≠ 0) ∧
    (calc_delay_samples 48000 (FVal.fin 97) 5 = some ⌊divApply (60 / 97 * 48000) 5⌋ ∧
     divApply (60 / 97 * 48000) 5 = 60 / 97 * 48000 * specDivisionFactor 5 ∧
     clampTarget ⌊divApply (60 / 97 * 48000) 5⌋ ≤ MAX_TAPE_LEN - 1 ∧
     calc_delay_samples 48000 (FVal.fin 120) 0 = some 24000) :=
  ⟨by norm_num, c5_amended 48000 97 5 (by norm_num) (by decide) (by decide)⟩

/-- A block with the baseline controls, the tap port raised and no samples. -/
def tapInp : Inputs := { baseInp0 with tap := 1 }

/-- Claim C2 (code_bug evaluation).  From the freshly activated state (no tap
memorized, tempo_tap = 120) a first tap at wall time 1000 must, per the
claim, leave tempo_tap unchanged and only advance the timestamp; the code
computes 60000 / 0 = +infinity in handle_tap, the d > 0 guard in run accepts
it, and tempo_tap becomes +infinity. -/
theorem c2_code_evaluation :
    (activate (instantiate 48000)).tempo_tap = FVal.fin 120 ∧
    (activate (instantiate 48000)).start_tap = 0 ∧
    (blockState (activate (instantiate 48000)) tapInp 1000).tempo_tap = FVal.inf ∧
    (blockState (activate (instantiate 48000)) tapInp 1000).start_tap = 1000 := by
  decide

/-- State after taps at wall times 1000 and 1500: a valid 500 ms pair, so
tempo_tap is 120 and the timestamp is 1500. -/
def c6_s2 : BollieDelay :=
  blockState (blockState (activate (instantiate 48000)) tapInp 1000) tapInp 1500

/-- Claim C6 (code_bug evaluation).  The interval classification matches the
claim (50 ms and 10001 ms rejected, 51 ms accepted as 60000/51, 10000 ms
accepted as 6 BPM, 500 ms as 120 BPM), but a rejected tap does not leave the
tap tempo unchanged: from tempo_tap = 120 a third tap 50 ms later drives
tempo_tap to +infinity through 60000 / 0. -/
theorem c6_code_evaluation :
    c6_s2.tempo_tap = FVal.fin 120 ∧
    (blockState c6_s2 tapInp 1550).tempo_tap = FVal.inf ∧
    (blockState c6_s2 tapInp 1550).start_tap = 1550 ∧
    (handle_tap 1000 1050).1 = FVal.inf ∧
    (handle_tap 1000 11001).1 = FVal.inf ∧
    (handle_tap 1000 1051).1 = FVal.fin (20000/17) ∧
    (handle_tap 1000 11000).1 = FVal.fin 6 ∧
    (handle_tap 1000 1500).1 = FVal.fin 120 := by decide

/-- Tap-tempo mode, no tap raised, no samples. -/
def c10_inp : Inputs := { baseInp0 with tempo_host := 0, tempo_mode := 2 }

/-- Tap-tempo mode with the tap port raised. -/
def c10_inpT : Inputs := { c10_inp with tap := 1 }

/-- Claim C10 (code_bug evaluation).  After activation tempo_tap is 120 and
the tap timestamp is cleared, and with tap mode selected and no tap events
the effective tempo is 120; but after a single tap (which is not a valid tap
pair) the effective tempo is +infinity rather than 120, because handle_tap
returns 60000 / 0 and run stores it. -/
theorem c10_code_evaluation :
    (activate (instantiate 48000)).tempo_tap = FVal.fin 120 ∧
    (activate (instantiate 48000)).start_tap = 0 ∧
    effTempo (activate (instantiate 48000)) c10_inp = FVal.fin 120 ∧
    effTempo (tapStep (activate (instantiate 48000)) c10_inpT 1000) c10_inpT =
      FVal.inf := by decide

/-- Baseline block with the host tempo dropped to 0. -/
def c3_inpZ : Inputs := { baseInp with tempo_host := 0 }

/-- Empty block with the host tempo at 0. -/
def c3_inpZ0 : Inputs := { baseInp0 with tempo_host := 0 }

/-- State at rate 8 after: a 120 BPM block (fade-out completes), an empty
120 BPM block (recompute to 4 samples), and a 0 BPM block (fade-out
completes again); the next 0 BPM block will recompute. -/
def c3_s3 : BollieDelay :=
  blockState (blockState (blockState (activate (instantiate 8)) baseInp 0)
    baseInp0 0) c3_inpZ 0

/-- Claim C3 (code_bug evaluation).  The recompute path has no tempo > 0
guard: from c3_s3 (state FADE_OUT_DONE, memorized tempo 120, targets 4) a
block with tempo 0 detects a change and calls calc_delay_samples with
tempo 0, evaluating 60 / 0 and casting floor(inf) to int — undefined
behaviour, modelled as none — instead of skipping the recomputation. -/
theorem c3_code_evaluation :
    c3_s3.state = BollieState.FADE_OUT_DONE ∧
    c3_s3.d_samples_l = 4 ∧ c3_s3.d_samples_r = 4 ∧
    c3_s3.cur_tempo = FVal.fin 120 ∧
    (runBlock c3_s3 c3_inpZ0 0).isNone = true := by decide

/-- Tap-tempo mode block with the tap port raised and no samples. -/
def c9_inpTap : Inputs := { baseInp0 with tempo_host := 0, tempo_mode := 2, tap := 1 }

/-- Tap-tempo mode block with the tap port raised and one silent sample. -/
def c9_inpTap1 : Inputs := { c9_inpTap with input_l := [0], input_r := [0] }

/-- Tap-tempo mode empty block without a tap. -/
def c9_inpRest : Inputs := { c9_inpTap with tap := 0 }

/-- Tap-tempo mode audio block: eleven samples, unit impulse on the left
channel at sample 6. -/
def c9_inpAudio : Inputs :=
  { c9_inpRest with
    input_l := [0, 0, 0, 0, 0, 0, 1, 0, 0, 0, 0]
    input_r := [0, 0, 0, 0, 0, 0, 0, 0, 0, 0, 0] }

/-- Run A: taps at wall times 1000 and 1500 (a 500 ms interval, 120 BPM). -/
def c9_blocksA : List (Inputs × ℤ) :=
  [(c9_inpTap, 1000), (c9_inpTap1, 1500), (c9_inpRest, 0), (c9_inpAudio, 0)]

/-- Run B: the same port values block for block, but the second tap arrives
at wall time 2000 (a 1000 ms interval, 60 BPM). -/
def c9_blocksB : List (Inputs × ℤ) :=
  [(c9_inpTap, 1000), (c9_inpTap1, 2000), (c9_inpRest, 0), (c9_inpAudio, 0)]

/-- Output blocks of run A from the freshly activated rate-8 instance. -/
def c9_outsA : List (List SampleOut) :=
  match runTrace (activate (instantiate 8)) c9_blocksA with
  | some r => r.2
  | none => []

/-- Output blocks of run B from the freshly activated rate-8 instance. -/
def c9_outsB : List (List SampleOut) :=
  match runTrace (activate (instantiate 8)) c9_blocksB with
  | some r => r.2
  | none => []

/-- Claim C9 (counterexample).  The two traces present identical port values
(control and audio inputs) in every block — they differ only in the
wall-clock time gettimeofday reports at the second tap — yet the produced
output blocks differ: run A resolves 120 BPM (delay 4 samples at rate 8) and
run B 60 BPM (delay 8 samples), so the impulse echo lands at different
samples.  Outputs are therefore not a function of input blocks and control
values alone. -/
theorem c9_counterexample :
    c9_blocksA.map Prod.fst = c9_blocksB.map Prod.fst ∧
    c9_outsA ≠ c9_outsB := by decide

/-- A run call whose tap port is not raised never reads the wall clock. -/
theorem tapStep_no_tap (s : BollieDelay) (inp : Inputs) (now_ms : ℤ)
    (h : inp.tap ≤ 0) : tapStep s inp now_ms = s := by
  unfold tapStep
  have h0 : ¬ 0 < inp.tap := not_lt.mpr h
  rw [if_neg (fun hc => h0 hc.1), if_neg h0]

/-- A block without a tap produces the same result at any wall-clock time. -/
theorem runBlock_no_tap (s : BollieDelay) (inp : Inputs) (t1 t2 : ℤ)
    (h : inp.tap ≤ 0) : runBlock s inp t1 = runBlock s inp t2 := by
  unfold runBlock headStep
  rw [tapStep_no_tap s inp t1 h, tapStep_no_tap s inp t2 h]

/-- Claim C9 (amended).  Determinism holds once the wall-clock times of the
tap reads are part of the inputs; in particular, for traces with identical
port values in which no block raises the tap port, the entire run — final
state and all output blocks — is independent of the wall-clock times. -/
theorem c9_amended (s : BollieDelay) (tr1 tr2 : List (Inputs × ℤ))
    (hports : tr1.map Prod.fst = tr2.map Prod.fst)
    (htap : ∀ p ∈ tr1, p.1.tap ≤ 0) :
    runTrace s tr1 = runTrace s tr2 := by
  induction tr1 generalizing s tr2 with
  | nil =>
    cases tr2 with
    | nil => rfl
    | cons q l => simp at hports
  | cons p rest ih =>
    cases tr2 with
    | nil => simp at hports
    | cons q rest2 =>
      simp only [List.map_cons, List.cons.injEq] at hports
      obtain ⟨hpq, hrest⟩ := hports
      have htap_p : p.1.tap ≤ 0 := htap p (List.mem_cons_self _ _)
      have hb : runBlock s p.1 p.2 = runBlock s q.1 q.2 := by
        rw [← hpq]
        exact runBlock_no_tap s p.1 p.2 q.2 htap_p
      unfold runTrace
      rw [← hb]
      cases hrb : runBlock s p.1 p.2 with
      | none => rfl
      | some r =>
        obtain ⟨s1, t1, outs1⟩ := r
        dsimp only
        rw [ih s1 rest2 hrest (fun x hx => htap x (List.mem_cons_of_mem _ hx))]

/-- Witness for c9_amended: a tapless block evaluated at two different
wall-clock times. -/
theorem c9_amended_witness :
    ([(c9_inpRest, (5 : ℤ))].map Prod.fst = [(c9_inpRest, (77 : ℤ))].map Prod.fst) ∧
    (∀ p ∈ [(c9_inpRest, (5 : ℤ))], p.1.tap ≤ 0) ∧
    runTrace (activate (instantiate 8)) [(c9_inpRest, 5)] =
      runTrace (activate (instantiate 8)) [(c9_inpRest, 77)] :=
  ⟨by decide, by decide,
    c9_amended (activate (instantiate 8)) [(c9_inpRest, 5)] [(c9_inpRest, 77)]
      (by decide) (by decide)⟩

/-- The divider switch maps a nonnegative base length to a nonnegative
length: every division factor is positive. -/
theorem divApply_nonneg (d : ℚ) (k : ℤ) (h : 0 ≤ d) : 0 ≤ divApply d k := by
  unfold divApply
  split_ifs
  · exact div_nonneg (mul_nonneg h (by norm_num)) (by norm_num)
  · exact div_nonneg h (by norm_num)
  · exact mul_nonneg (div_nonneg h (by norm_num)) (by norm_num)
  · exact div_nonneg h (by norm_num)
  · exact div_nonneg h (by norm_num)
  · exact h

/-- With a positive sample rate and a positive finite tempo, a successful
calc_delay_samples result is nonnegative. -/
theorem calc_some_nonneg (rate t : ℚ) (k d : ℤ) (hrate : 0 < rate)
    (ht : 0 < t) (h : calc_delay_samples rate (FVal.fin t) k = some d) :
    0 ≤ d := by
  unfold calc_delay_samples at h
  dsimp only at h
  rw [if_neg (ne_of_gt ht)] at h
  split at h
  · simp only [Option.some.injEq] at h
    subst h
    have hbase : (0:ℚ) ≤ 60 / t * rate :=
      le_of_lt (mul_pos (div_pos (by norm_num) ht) hrate)
    exact Int.floor_nonneg.mpr (divApply_nonneg _ k hbase)
  · simp at h

/-- The clamp keeps a nonnegative target nonnegative. -/
theorem clampTarget_nonneg (d : ℤ) (h : 0 ≤ d) : 0 ≤ clampTarget d := by
  unfold clampTarget MAX_TAPE_LEN
  split <;> omega

/-- The clamp bounds every target by the buffer capacity minus one. -/
theorem clampTarget_le (d : ℤ) : clampTarget d ≤ MAX_TAPE_LEN - 1 := by
  unfold clampTarget MAX_TAPE_LEN
  split <;> omega

/-- One sample iteration preserves the engine invariant: the delay targets
are untouched and each write position either wraps to 0 or advances while
staying at most its channel's target. -/
theorem inv_sampleStep (inp : Inputs) (s : BollieDelay) (a b : ℚ)
    (h : EngineInv s) : EngineInv (sampleStep inp s a b).1 := by
  obtain ⟨h1, h2, h3, h4, h5, h6, h7, h8, h9⟩ := h
  refine ⟨h1, h2, h3, ?_, ?_, h6, h7, ?_, ?_⟩
  · show (0:ℤ) ≤ if s.d_samples_l + 1 ≤ s.wl_pos + 1 then 0 else s.wl_pos + 1
    split <;> omega
  · show (if s.d_samples_l + 1 ≤ s.wl_pos + 1 then 0 else s.wl_pos + 1) ≤
      s.d_samples_l
    split <;> omega
  · show (0:ℤ) ≤ if s.d_samples_r + 1 ≤ s.wr_pos + 1 then 0 else s.wr_pos + 1
    split <;> omega
  · show (if s.d_samples_r + 1 ≤ s.wr_pos + 1 then 0 else s.wr_pos + 1) ≤
      s.d_samples_r
    split <;> omega

/-- The sample loop preserves the engine invariant. -/
theorem inv_runSamples (inp : Inputs) (l : List (ℚ × ℚ)) (s : BollieDelay)
    (h : EngineInv s) : EngineInv (runSamples inp s l).1 := by
  induction l generalizing s with
  | nil => exact h
  | cons p rest ih =>
    exact ih (sampleStep inp s p.1 p.2).1 (inv_sampleStep inp s p.1 p.2 h)

/-- The head of a run call preserves the engine invariant provided the
resolved tempo is finite and positive: either nothing relevant changes, or
the recompute adopts clamped nonnegative targets and sets the write
positions to exactly those targets. -/
theorem inv_headStep (s : BollieDelay) (inp : Inputs) (now_ms : ℤ)
    (s2 : BollieDelay) (tout : Option FVal)
    (hp : PosTempo s inp now_ms) (h : EngineInv s)
    (he : headStep s inp now_ms = some (s2, tout)) : EngineInv s2 := by
  have hs1 : EngineInv (tapStep s inp now_ms) := h
  obtain ⟨hpos, hfin⟩ := hp
  simp only [headStep] at he
  split at he
  · split at he
    · rcases hT : effTempo (tapStep s inp now_ms) inp with t | _
      case inf => rw [hT] at hfin; exact absurd rfl hfin
      case fin =>
      rw [hT] at he hpos
      have ht : 0 < t := by simpa [FVal.gtZero] using hpos
      rcases hcl : calc_delay_samples (tapStep s inp now_ms).rate (FVal.fin t)
          (truncQ inp.div_l) with _ | dl0
      · rw [hcl] at he; simp at he
      rcases hcr : calc_delay_samples (tapStep s inp now_ms).rate (FVal.fin t)
          (truncQ inp.div_r) with _ | dr0
      · rw [hcl, hcr] at he; simp at he
      rw [hcl, hcr] at he
      simp only [Option.some.injEq, Prod.mk.injEq] at he
      obtain ⟨hes, _⟩ := he
      subst hes
      have hrate : 0 < (tapStep s inp now_ms).rate := hs1.1
      have hdl : 0 ≤ dl0 := calc_some_nonneg _ t _ dl0 hrate ht hcl
      have hdr : 0 ≤ dr0 := calc_some_nonneg _ t _ dr0 hrate ht hcr
      exact ⟨hrate, clampTarget_nonneg dl0 hdl, clampTarget_le dl0,
        clampTarget_nonneg dl0 hdl, le_refl _,
        clampTarget_nonneg dr0 hdr, clampTarget_le dr0,
        clampTarget_nonneg dr0 hdr, le_refl _⟩
    · split at he <;>
      · simp only [Option.some.injEq, Prod.mk.injEq] at he
        obtain ⟨hes, _⟩ := he
        subst hes
        exact hs1
  · simp only [Option.some.injEq, Prod.mk.injEq] at he
    obtain ⟨hes, _⟩ := he
    subst hes
    exact hs1

/-- A complete run call preserves the engine invariant. -/
theorem inv_runBlock (s : BollieDelay) (inp : Inputs) (now_ms : ℤ)
    (s2 : BollieDelay) (tout : Option FVal) (outs : List SampleOut)
    (hp : PosTempo s inp now_ms) (h : EngineInv s)
    (he : runBlock s inp now_ms = some (s2, tout, outs)) : EngineInv s2 := by
  unfold runBlock at he
  rcases hh : headStep s inp now_ms with _ | ⟨s1, t1⟩
  · rw [hh] at he; exact absurd he (by simp)
  · rw [hh] at he
    dsimp only at he
    simp only [Option.some.injEq, Prod.mk.injEq] at he
    obtain ⟨he1, _, _⟩ := he
    subst he1
    exact inv_runSamples inp _ s1 (inv_headStep s inp now_ms s1 t1 hp h hh)

/-- Every reachable state satisfies the engine invariant. -/
theorem reachable_inv (rate : ℚ) (s : BollieDelay) (h : Reachable rate s) :
    EngineInv s := by
  induction h with
  | act hrate =>
    refine ⟨hrate, le_refl 0, ?_, le_refl 0, le_refl 0, le_refl 0, ?_,
      le_refl 0, le_refl 0⟩ <;>
    · show (0:ℤ) ≤ MAX_TAPE_LEN - 1
      decide
  | step hr hp he ih => exact inv_runBlock _ _ _ _ _ _ hp ih he

/-- Claim C7: in every reachable state of the engine (after activation,
across any sequence of run calls whose resolved tempo is positive and which
complete without undefined behaviour), both channels' write positions lie in
[0, MAX_TAPE_LEN), so every delay-buffer write of the next sample iteration
indexes inside the buffer (and inv_sampleStep shows the bound is maintained
at every sample inside a block). -/
theorem c7_write_pos_in_bounds (rate : ℚ) (s : BollieDelay)
    (h : Reachable rate s) :
    (0 ≤ s.wl_pos ∧ s.wl_pos < MAX_TAPE_LEN) ∧
    (0 ≤ s.wr_pos ∧ s.wr_pos < MAX_TAPE_LEN) := by
  obtain ⟨_, _, h3, h4, h5, _, h7, h8, h9⟩ := reachable_inv rate s h
  exact ⟨⟨h4, by omega⟩, ⟨h8, by omega⟩⟩

/-- Witness for c7_write_pos_in_bounds at the freshly activated rate-8
instance. -/
theorem c7_write_pos_in_bounds_witness :
    (0 ≤ (activate (instantiate 8)).wl_pos ∧
      (activate (instantiate 8)).wl_pos < MAX_TAPE_LEN) ∧
    (0 ≤ (activate (instantiate 8)).wr_pos ∧
      (activate (instantiate 8)).wr_pos < MAX_TAPE_LEN) :=
  c7_write_pos_in_bounds 8 (activate (instantiate 8))
    (Reachable.act (by norm_num))

/-- Claim C8 (amended).  Each channel has its own write cursor: one sample
iteration advances wl_pos by one modulo d_samples_l + 1 and wr_pos by one
modulo d_samples_r + 1, each against its own channel's period. -/
theorem c8_amended (inp : Inputs) (s : BollieDelay) (a b : ℚ)
    (hl0 : 0 ≤ s.wl_pos) (hl1 : s.wl_pos ≤ s.d_samples_l)
    (hr0 : 0 ≤ s.wr_pos) (hr1 : s.wr_pos ≤ s.d_samples_r) :
    (sampleStep inp s a b).1.wl_pos = (s.wl_pos + 1) % (s.d_samples_l + 1) ∧
    (sampleStep inp s a b).1.wr_pos = (s.wr_pos + 1) % (s.d_samples_r + 1) := by
  constructor
  · show (if s.d_samples_l + 1 ≤ s.wl_pos + 1 then 0 else s.wl_pos + 1) =
      (s.wl_pos + 1) % (s.d_samples_l + 1)
    split
    · rename_i hc
      rw [show s.wl_pos + 1 = s.d_samples_l + 1 by omega, Int.emod_self]
    · rename_i hc
      rw [Int.emod_eq_of_lt (by omega) (by omega)]
  · show (if s.d_samples_r + 1 ≤ s.wr_pos + 1 then 0 else s.wr_pos + 1) =
      (s.wr_pos + 1) % (s.d_samples_r + 1)
    split
    · rename_i hc
      rw [show s.wr_pos + 1 = s.d_samples_r + 1 by omega, Int.emod_self]
    · rename_i hc
      rw [Int.emod_eq_of_lt (by omega) (by omega)]

/-- Witness for c8_amended at the freshly activated rate-8 instance. -/
theorem c8_amended_witness :
    (0 ≤ (activate (instantiate 8)).wl_pos) ∧
    ((activate (instantiate 8)).wl_pos ≤ (activate (instantiate 8)).d_samples_l) ∧
    (0 ≤ (activate (instantiate 8)).wr_pos) ∧
    ((activate (instantiate 8)).wr_pos ≤ (activate (instantiate 8)).d_samples_r) ∧
    ((sampleStep baseInp (activate (instantiate 8)) 1 2).1.wl_pos =
      ((activate (instantiate 8)).wl_pos + 1) %
        ((activate (instantiate 8)).d_samples_l + 1) ∧
     (sampleStep baseInp (activate (instantiate 8)) 1 2).1.wr_pos =
      ((activate (instantiate 8)).wr_pos + 1) %
        ((activate (instantiate 8)).d_samples_r + 1)) :=
  ⟨by decide, by decide, by decide, by decide,
    c8_amended baseInp (activate (instantiate 8)) 1 2 (by decide) (by decide)
      (by decide) (by decide)⟩

/-- A defined run call equals the triple of its projection helpers. -/
theorem runBlock_proj (s : BollieDelay) (inp : Inputs) (now_ms : ℤ)
    (h : (runBlock s inp now_ms).isSome = true) :
    runBlock s inp now_ms =
      some (blockState s inp now_ms, blockTOut s inp now_ms,
        blockOuts s inp now_ms) := by
  cases hrb : runBlock s inp now_ms with
  | none => rw [hrb] at h; simp at h
  | some r =>
    obtain ⟨s1, t1, o1⟩ := r
    unfold blockState blockTOut blockOuts
    rw [hrb]

/-- Baseline block with the right divider at 2 (half-length delay on the
right channel). -/
def c8_inpA : Inputs := { baseInp with div_r := 2 }

/-- Empty block with the same controls. -/
def c8_inpB : Inputs := { c8_inpA with input_l := [], input_r := [] }

/-- State after one c8_inpA block (fade-out completes) and one empty block
(recompute: left target 4, right target 2). -/
def c8_s2 : BollieDelay :=
  blockState (blockState (activate (instantiate 8)) c8_inpA 0) c8_inpB 0

/-- Claim C8 (counterexample).  A reachable state (rate 8, tempo 120,
divisions 0 and 2) in which the left write position is 4 and the right write
position is 2: the source keeps two independent write cursors wl_pos and
wr_pos, not a single shared one, and they differ as soon as the channels'
delay lengths differ. -/
theorem c8_counterexample :
    Reachable 8 c8_s2 ∧ c8_s2.wl_pos ≠ c8_s2.wr_pos := by
  constructor
  · exact Reachable.step
      (Reachable.step (Reachable.act (by norm_num)) (by decide)
        (runBlock_proj (activate (instantiate 8)) c8_inpA 0 (by decide)))
      (by decide)
      (runBlock_proj (blockState (activate (instantiate 8)) c8_inpA 0)
        c8_inpB 0 (by decide))
  · decide
